import Mathlib

/-!
# zbctl: output printers and the `complete job` command

A shallow embedding of
`clients/go/cmd/zbctl/internal/commands/output.go` and
`clients/go/cmd/zbctl/internal/commands/completeJob.go`.

Package-level variables become the record `Globals`; every call the code makes
to a collaborator (request builder, `Send`, `printJSON`, the logger, the methods
of a `Printable`) appends an `Event` to a trace, so that "called exactly once"
and "never called" are statements about the trace.
-/

namespace Zbctl

/-- A non-nil Go `error`, identified with its message. A nil error is `none`. -/
abbrev Err := String

/-! ## output.go -/

/-- The two implementations of the `Printer` interface; the value stands for the
non-nil pointer `&HumanPrinter{}` resp. `&JSONPrinter{}`. -/
inductive Printer
  | HumanPrinter
  | JSONPrinter
  deriving DecidableEq, Repr

/-- Source: `const humanOutput = "human"`. -/
def humanOutput : String := "human"

/-- Source: `const jsonOutput = "json"`. -/
def jsonOutput : String := "json"

/-- Source: the initial value of the package variable `outputMap`,
`map[string]Printer{humanOutput: &HumanPrinter{}, jsonOutput: &JSONPrinter{}}`. -/
def outputMap : List (String × Printer) :=
  [(humanOutput, Printer.HumanPrinter), (jsonOutput, Printer.JSONPrinter)]

/-- The package-level variables of the two files. -/
structure Globals where
  outputFlag : String
  outputMap : List (String × Printer)
  completeJobKey : Int
  completeJobVariablesFlag : String
  deriving DecidableEq, Repr

/-- The `Printable` interface: `protoMessage()` yields a proto message of type `M`,
`print()` hands records to the logger. Both may read the package variables. -/
structure Printable (M : Type) where
  protoMessage : Globals → M
  print : Globals → List String

/-- Observable calls, in program order. -/
inductive Event (Req M : Type)
  /-- The call `client.NewCompleteJobCommand().JobKey(key).VariablesFromString(vars)` -/
  | construct (key : Int) (vars : String)
  /-- The call `request.Send(ctx)` -/
  | send (request : Req)
  /-- The call `printer.print(message)` on the given printer -/
  | printerPrint (printer : Printer) (message : Printable M)
  /-- The call `message.protoMessage()` -/
  | protoMessage
  /-- The call `message.print()` -/
  | print
  /-- The call `printJSON(m)` -/
  | printJSON (m : M)
  /-- One record handed to the standard logger -/
  | log (record : String)

/-- Program state: the package variables and the trace of calls made so far. -/
structure World (Req M : Type) where
  globals : Globals
  trace : List (Event Req M)

/-- The collaborators reached through the package variable `client` and the
helper `printJSON`, whose code is outside the two files. -/
structure Env (Req M : Type) where
  /-- Result of `PreRunE: initClient` -/
  initClient : Option Err
  /-- Result of `NewCompleteJobCommand().JobKey(k).VariablesFromString(v)` -/
  variablesFromString : Int → String → Except Err Req
  /-- Result of `request.Send(ctx)` under the default timeout -/
  send : Req → Except Err M
  /-- Result of `printJSON(m)`: nil or the serialization error -/
  printJSON : M → Option Err

variable {Req M : Type}

/-- Append one event to the trace. -/
def World.emit (w : World Req M) (e : Event Req M) : World Req M :=
  { w with trace := w.trace ++ [e] }

/-- Source: `findPrinter` (output.go 33-40). The Go pair is `(printer, nil)` with a
non-nil printer, rendered `.ok printer`, or `(nil, err)`, rendered `.error err`. A
missing key and a key bound to a nil printer both read as nil. -/
def findPrinter (w : World Req M) : Except Err Printer × World Req M :=
  match w.globals.outputMap.lookup w.globals.outputFlag with
  | none => (.error ("cannot find proper printer for " ++ w.globals.outputFlag ++ " output"), w)
  | some printer => (.ok printer, w)

/-- A call of `message.protoMessage()`. -/
def Printable.callProtoMessage (message : Printable M) (w : World Req M) :
    M × World Req M :=
  (message.protoMessage w.globals, w.emit Event.protoMessage)

/-- A call of `message.print()`: the call itself, then the records it logs. -/
def Printable.callPrint (message : Printable M) (w : World Req M) : World Req M :=
  { w with trace := w.trace ++ Event.print :: (message.print w.globals).map Event.log }

/-- A call of `printJSON(m)`. -/
def printJSON (env : Env Req M) (m : M) (w : World Req M) : Option Err × World Req M :=
  (env.printJSON m, w.emit (Event.printJSON m))

/-- Source: `(*JSONPrinter).print` (output.go 50-52). -/
def JSONPrinter.print (env : Env Req M) (message : Printable M) (w : World Req M) :
    Option Err × World Req M :=
  let (m, w1) := message.callProtoMessage w
  printJSON env m w1

/-- Source: `(*HumanPrinter).print` (output.go 54-57). -/
def HumanPrinter.print (message : Printable M) (w : World Req M) :
    Option Err × World Req M :=
  let w1 := message.callPrint w
  (none, w1)

/-- Dynamic dispatch of `printer.print(message)` on the interface value. -/
def Printer.print (env : Env Req M) (printer : Printer) (message : Printable M)
    (w : World Req M) : Option Err × World Req M :=
  let w1 := w.emit (Event.printerPrint printer message)
  match printer with
  | Printer.HumanPrinter => HumanPrinter.print message w1
  | Printer.JSONPrinter => JSONPrinter.print env message w1

/-- Source: `addOutputFlag` (output.go 64-72): registering the string flag stores its
default, `humanOutput`, in `outputFlag`. -/
def addOutputFlag (g : Globals) : Globals :=
  { g with outputFlag := humanOutput }

/-! ## The formatting done by `log.Println` -/

/-- An operand of `log.Println`, as used in completeJob.go. -/
inductive Operand
  | str (s : String)
  | int64 (i : Int)

/-- Default formatting of an operand: a string as it is, an integer in decimal. -/
def Operand.format : Operand → String
  | Operand.str s => s
  | Operand.int64 i => toString i

/-- Go `fmt.Sprintln`: operands separated by single spaces, newline appended. -/
def Sprintln (operands : List Operand) : String :=
  " ".intercalate (operands.map Operand.format) ++ "\n"

/-! ## completeJob.go -/

/-- Source: `CompleteJobResponseWrapper.print` (completeJob.go 33-35): one
`log.Println` of the two package variables. -/
def CompleteJobResponseWrapper.print (g : Globals) : List String :=
  [Sprintln [Operand.str "Completed job with key", Operand.int64 g.completeJobKey,
    Operand.str "and variables", Operand.str g.completeJobVariablesFlag]]

/-- Source: `CompleteJobResponseWrapper` with its two methods (completeJob.go 25-35). -/
def CompleteJobResponseWrapper (resp : M) : Printable M where
  protoMessage := fun _ => resp
  print := CompleteJobResponseWrapper.print

/-- The builder chain of RunE line 57. -/
def newCompleteJobCommand (env : Env Req M) (key : Int) (vars : String)
    (w : World Req M) : Except Err Req × World Req M :=
  (env.variablesFromString key vars, w.emit (Event.construct key vars))

/-- A call of `request.Send(ctx)`. -/
def send (env : Env Req M) (request : Req) (w : World Req M) :
    Except Err M × World Req M :=
  (env.send request, w.emit (Event.send request))

/-- Source: `completeJobCmd.RunE` (completeJob.go 47-72). -/
def RunE (env : Env Req M) (w : World Req M) : Option Err × World Req M :=
  match findPrinter w with
  | (.error err, w1) => (some err, w1)
  | (.ok printer, w1) =>
    match newCompleteJobCommand env w1.globals.completeJobKey
        w1.globals.completeJobVariablesFlag w1 with
    | (.error err, w2) => (some err, w2)
    | (.ok request, w2) =>
      match send env request w2 with
      | (.error err, w3) => (some err, w3)
      | (.ok resp, w3) => Printer.print env printer (CompleteJobResponseWrapper resp) w3

/-- The package variables before any `init` has run: zero values, and the map
literal of output.go. -/
def zeroGlobals : Globals :=
  { outputFlag := "", outputMap := outputMap, completeJobKey := 0,
    completeJobVariablesFlag := "" }

/-- Source: `init` (completeJob.go 75-79): registers the output flag and the
`variables` flag, whose default is the text of an empty JSON object. -/
def init (g : Globals) : Globals :=
  let g1 := addOutputFlag g
  { g1 with completeJobVariablesFlag := "\x7b\x7d" }

/-! ## Trace observations -/

/-- Number of `Send` calls in a trace. -/
def sendCalls (t : List (Event Req M)) : Nat :=
  t.countP fun e => match e with
    | Event.send _ => true
    | _ => false

/-- Number of request constructions in a trace. -/
def constructCalls (t : List (Event Req M)) : Nat :=
  t.countP fun e => match e with
    | Event.construct _ _ => true
    | _ => false

/-- Number of `printer.print` calls in a trace. -/
def printerCalls (t : List (Event Req M)) : Nat :=
  t.countP fun e => match e with
    | Event.printerPrint _ _ => true
    | _ => false

/-- Number of `message.print()` calls in a trace. -/
def printCalls (t : List (Event Req M)) : Nat :=
  t.countP fun e => match e with
    | Event.print => true
    | _ => false

/-- Number of `message.protoMessage()` calls in a trace. -/
def protoMessageCalls (t : List (Event Req M)) : Nat :=
  t.countP fun e => match e with
    | Event.protoMessage => true
    | _ => false

/-- Number of `printJSON` calls in a trace. -/
def printJSONCalls (t : List (Event Req M)) : Nat :=
  t.countP fun e => match e with
    | Event.printJSON _ => true
    | _ => false

/-- The records handed to the logger, in order. -/
def logged (t : List (Event Req M)) : List String :=
  t.filterMap fun e => match e with
    | Event.log r => some r
    | _ => none

/-- The `(key, variables)` pairs requests were constructed from, in order. -/
def constructed (t : List (Event Req M)) : List (Int × String) :=
  t.filterMap fun e => match e with
    | Event.construct k v => some (k, v)
    | _ => none

/-! ## What the logger writes -/

/-- Go `(*log.Logger).Output`: the bytes written for one record are the header the
logger is configured with, then the message, then a line feed unless the message
already ends in one. The header (flags and leading text of the standard logger) is
set outside the two files and is a parameter here. -/
def loggerOutput (header message : String) : String :=
  header ++ message ++ (if message.data.getLast? = some '\n' then "" else "\n")

/-- The lines of a text: each run of characters closed by a line feed, and the
unfinished run after the last line feed when there is one. -/
def splitLines : List Char → List (List Char)
  | [] => []
  | c :: cs =>
    if c = '\n' then [] :: splitLines cs
    else
      match splitLines cs with
      | [] => [[c]]
      | l :: ls => (c :: l) :: ls

/-- The lines of a text, as strings without their line feed. -/
def textLines (s : String) : List String :=
  (splitLines s.data).map String.mk

/-- The lines the logger writes for the given records, in order. -/
def writtenLines (header : String) (records : List String) : List String :=
  (records.map fun r => textLines (loggerOutput header r)).flatten

/-! ## The command line -/

/-- What the flag framework extracts from one command line of `complete job`: the
positional arguments and, for each of the two string flags, the text given with it
(`none` when the flag is absent). -/
structure Invocation where
  args : List String
  output : Option String
  variablesFlag : Option String
  deriving DecidableEq, Repr

/-- Flag parsing of the framework for string flags bound to a variable: a flag given
on the command line stores its text in the variable, unchanged; an absent flag
leaves the default stored at registration. -/
def parseFlags (inv : Invocation) (g : Globals) : Globals :=
  let g1 := match inv.output with
    | some o => { g with outputFlag := o }
    | none => g
  match inv.variablesFlag with
  | some v => { g1 with completeJobVariablesFlag := v }
  | none => g1

/-- Value of a decimal digit character, `none` for any other character. -/
def digitValue (c : Char) : Option Nat :=
  if c.isDigit then some (c.toNat - 48) else none

/-- Reads decimal digits left to right onto the accumulator; `none` at the first
character that is not a digit. -/
def parseDigits : List Char → Nat → Option Nat
  | [], acc => some acc
  | c :: cs, acc =>
    match digitValue c with
    | none => none
    | some d => parseDigits cs (10 * acc + d)

/-- Reads a non-empty run of decimal digits. -/
def parseNat (cs : List Char) : Option Nat :=
  if cs = [] then none else parseDigits cs 0

/-- Modelled from the spec: the parser behind `keyArg`, which is not in the two
files. The spec asks that the positional argument "must parse as a 64-bit integer"
and that no truncation or overflow is silently accepted: an optional sign, then
decimal digits, and the value must lie in the signed 64-bit range. -/
def parseInt64 (s : String) : Option Int :=
  match s.data with
  | '-' :: cs =>
    match parseNat cs with
    | some n => if n ≤ 2 ^ 63 then some (-(n : Int)) else none
    | none => none
  | '+' :: cs =>
    match parseNat cs with
    | some n => if n < 2 ^ 63 then some (n : Int) else none
    | none => none
  | cs =>
    match parseNat cs with
    | some n => if n < 2 ^ 63 then some (n : Int) else none
    | none => none

/-- Modelled from the spec: `keyArg(&completeJobKey)`, the positional-argument
validator of the command, which is not in the two files. Per the spec there is a
single positional argument, it must parse as a 64-bit integer, and a text that
does not parse is an error that mentions the text; on success the parsed value is
stored in `completeJobKey`. -/
def keyArg (args : List String) (w : World Req M) : Option Err × World Req M :=
  match args with
  | [arg] =>
    match parseInt64 arg with
    | some key => (none, { w with globals := { w.globals with completeJobKey := key } })
    | none => (some ("invalid argument " ++ arg ++ " for key"), w)
  | _ => (some "expects key as only positional argument", w)

/-- One run of the command as the framework performs it: `init` on the zero-valued
package variables, flag parsing, `Args` validation, `PreRunE`, then `RunE`; the
first error ends the run. -/
def execute (env : Env Req M) (inv : Invocation) : Option Err × World Req M :=
  match keyArg inv.args (⟨parseFlags inv (init zeroGlobals), []⟩ : World Req M) with
  | (some err, w1) => (some err, w1)
  | (none, w1) =>
    match env.initClient with
    | some err => (some err, w1)
    | none => RunE env w1

/-- Number denoted by a run of decimal digit characters, most significant first. -/
def decimalValue (body : List Char) : Nat :=
  Nat.ofDigits 10 (body.reverse.map fun c => c.toNat - 48)

/-- Modelled from the spec: "a valid 64-bit integer string" denoting `n`. The text is
a non-empty run of decimal digits, optionally preceded by one sign character, and
the integer it denotes lies in the signed 64-bit range. -/
def IsInt64Text (s : String) (n : Int) : Prop :=
  ∃ body : List Char, body ≠ [] ∧ (∀ c ∈ body, c.isDigit = true) ∧
    (((s.data = body ∨ s.data = '+' :: body) ∧ n = (decimalValue body : Int)) ∨
      (s.data = '-' :: body ∧ n = -(decimalValue body : Int))) ∧
    -(2 : Int) ^ 63 ≤ n ∧ n < (2 : Int) ^ 63

/-- A stand-in client for concrete runs: the request is the pair it was built from,
the response is the text of an empty JSON object, and each of the three
collaborators fails with the given error when one is given. -/
def stubEnv (buildErr sendErr jsonErr : Option Err) : Env (Int × String) String where
  initClient := none
  variablesFromString := fun k v =>
    match buildErr with
    | some e => Except.error e
    | none => Except.ok (k, v)
  send := fun _ =>
    match sendErr with
    | some e => Except.error e
    | none => Except.ok "\x7b\x7d"
  printJSON := fun _ => jsonErr

/-- A world holding the given package variables and an empty trace. -/
def stubWorld (outputFlag : String) (key : Int) (vars : String) :
    World (Int × String) String :=
  ⟨⟨outputFlag, outputMap, key, vars⟩, []⟩

/-! ## Auxiliary facts -/

theorem lookup_outputMap (m : String) :
    outputMap.lookup m =
      if m = "human" then some Printer.HumanPrinter
      else if m = "json" then some Printer.JSONPrinter else none := by
  unfold outputMap humanOutput jsonOutput
  by_cases h1 : m = "human"
  · subst h1
    rfl
  · by_cases h2 : m = "json"
    · subst h2
      rfl
    · have e1 : (m == "human") = false := beq_eq_false_iff_ne.mpr h1
      have e2 : (m == "json") = false := beq_eq_false_iff_ne.mpr h2
      simp [List.lookup, e1, e2, h1, h2]

theorem printCalls_append (s t : List (Event Req M)) :
    printCalls (s ++ t) = printCalls s + printCalls t := by
  simp [printCalls, List.countP_append]

theorem protoMessageCalls_append (s t : List (Event Req M)) :
    protoMessageCalls (s ++ t) = protoMessageCalls s + protoMessageCalls t := by
  simp [protoMessageCalls, List.countP_append]

theorem printJSONCalls_append (s t : List (Event Req M)) :
    printJSONCalls (s ++ t) = printJSONCalls s + printJSONCalls t := by
  simp [printJSONCalls, List.countP_append]

theorem sendCalls_append (s t : List (Event Req M)) :
    sendCalls (s ++ t) = sendCalls s + sendCalls t := by
  simp [sendCalls, List.countP_append]

theorem constructCalls_append (s t : List (Event Req M)) :
    constructCalls (s ++ t) = constructCalls s + constructCalls t := by
  simp [constructCalls, List.countP_append]

theorem printerCalls_append (s t : List (Event Req M)) :
    printerCalls (s ++ t) = printerCalls s + printerCalls t := by
  simp [printerCalls, List.countP_append]

theorem logged_append (s t : List (Event Req M)) :
    logged (s ++ t) = logged s ++ logged t := by
  simp [logged, List.filterMap_append]

theorem printCalls_log (rs : List String) :
    printCalls (rs.map (Event.log : String → Event Req M)) = 0 := by
  induction rs with
  | nil => rfl
  | cons r rs _ => simp [printCalls]

theorem protoMessageCalls_log (rs : List String) :
    protoMessageCalls (rs.map (Event.log : String → Event Req M)) = 0 := by
  induction rs with
  | nil => rfl
  | cons r rs _ => simp [protoMessageCalls]

theorem printJSONCalls_log (rs : List String) :
    printJSONCalls (rs.map (Event.log : String → Event Req M)) = 0 := by
  induction rs with
  | nil => rfl
  | cons r rs _ => simp [printJSONCalls]

theorem logged_log (rs : List String) :
    logged (rs.map (Event.log : String → Event Req M)) = rs := by
  induction rs with
  | nil => rfl
  | cons r rs ih => simpa [logged] using ih

/-- The text `log.Println` is given by `CompleteJobResponseWrapper.print`. -/
theorem wrapper_print_text (g : Globals) :
    CompleteJobResponseWrapper.print g =
      ["Completed job with key " ++ toString g.completeJobKey ++ " and variables "
        ++ g.completeJobVariablesFlag ++ "\n"] := by
  simp [CompleteJobResponseWrapper.print, Sprintln, Operand.format, String.intercalate,
    String.intercalate.go, String.append_assoc]

/-! ## Output-mode resolution -/

/-- C1: with the registry of output.go, `findPrinter` yields a printer exactly when
`outputFlag` is "human" (the HumanPrinter) or "json" (the JSONPrinter); for every
other value, among them "xml", "" and "JSON", it yields the error naming that
value. It leaves the package variables and the trace as they were, so a second call
gives the same result. -/
theorem findPrinter_total_pure (m : String) (k : Int) (v : String)
    (t : List (Event Req M)) :
    (findPrinter ⟨⟨m, outputMap, k, v⟩, t⟩).2 = ⟨⟨m, outputMap, k, v⟩, t⟩ ∧
    findPrinter (findPrinter (⟨⟨m, outputMap, k, v⟩, t⟩ : World Req M)).2 =
      findPrinter ⟨⟨m, outputMap, k, v⟩, t⟩ ∧
    ((∃ p, (findPrinter (⟨⟨m, outputMap, k, v⟩, t⟩ : World Req M)).1 = Except.ok p) ↔
      (m = "human" ∨ m = "json")) ∧
    (m = "human" →
      (findPrinter (⟨⟨m, outputMap, k, v⟩, t⟩ : World Req M)).1 =
        Except.ok Printer.HumanPrinter) ∧
    (m = "json" →
      (findPrinter (⟨⟨m, outputMap, k, v⟩, t⟩ : World Req M)).1 =
        Except.ok Printer.JSONPrinter) ∧
    (m ≠ "human" → m ≠ "json" →
      (findPrinter (⟨⟨m, outputMap, k, v⟩, t⟩ : World Req M)).1 =
        Except.error ("cannot find proper printer for " ++ m ++ " output")) ∧
    (findPrinter (⟨⟨"xml", outputMap, k, v⟩, t⟩ : World Req M)).1 =
      Except.error "cannot find proper printer for xml output" ∧
    (findPrinter (⟨⟨"", outputMap, k, v⟩, t⟩ : World Req M)).1 =
      Except.error "cannot find proper printer for  output" ∧
    (findPrinter (⟨⟨"JSON", outputMap, k, v⟩, t⟩ : World Req M)).1 =
      Except.error "cannot find proper printer for JSON output" := by
  have hstate : ∀ w : World Req M, (findPrinter w).2 = w := by
    intro w
    unfold findPrinter
    split <;> rfl
  refine ⟨hstate _, by rw [hstate], ?_, ?_, ?_, ?_, rfl, rfl, rfl⟩
  · simp only [findPrinter, lookup_outputMap]
    by_cases h1 : m = "human"
    · simp [h1]
    · by_cases h2 : m = "json"
      · simp [h2]
      · simp [h1, h2]
  · intro h
    simp [findPrinter, lookup_outputMap, h]
  · intro h
    simp [findPrinter, lookup_outputMap, h]
  · intro h1 h2
    simp [findPrinter, lookup_outputMap, h1, h2]

/-! ## The printers -/

/-- C6: `JSONPrinter.print` calls `protoMessage()` once, hands exactly that message
to `printJSON` once and returns the result of `printJSON` as it is, so a
serialization error is returned as that error; it never calls `message.print()` and
logs nothing. For the wrapper of a completion response the message is the response
itself. -/
theorem JSONPrinter_print_spec (env : Env Req M) (message : Printable M)
    (w : World Req M) (resp : M) :
    JSONPrinter.print env message w =
      (env.printJSON (message.protoMessage w.globals),
        ⟨w.globals, w.trace ++
          [Event.protoMessage, Event.printJSON (message.protoMessage w.globals)]⟩) ∧
    (∀ e, env.printJSON (message.protoMessage w.globals) = some e →
      (JSONPrinter.print env message w).1 = some e) ∧
    printJSONCalls (JSONPrinter.print env message w).2.trace =
      printJSONCalls w.trace + 1 ∧
    printCalls (JSONPrinter.print env message w).2.trace = printCalls w.trace ∧
    logged (JSONPrinter.print env message w).2.trace = logged w.trace ∧
    (CompleteJobResponseWrapper resp).protoMessage w.globals = resp ∧
    JSONPrinter.print env (CompleteJobResponseWrapper resp) w =
      (env.printJSON resp,
        ⟨w.globals, w.trace ++ [Event.protoMessage, Event.printJSON resp]⟩) := by
  have key : ∀ msg : Printable M, JSONPrinter.print env msg w =
      (env.printJSON (msg.protoMessage w.globals),
        ⟨w.globals, w.trace ++
          [Event.protoMessage, Event.printJSON (msg.protoMessage w.globals)]⟩) := by
    intro msg
    simp [JSONPrinter.print, Printable.callProtoMessage, printJSON, World.emit]
  refine ⟨key message, ?_, ?_, ?_, ?_, rfl, key _⟩
  · intro e he
    rw [key, he]
  · rw [key, printJSONCalls_append]
    simp [printJSONCalls]
  · rw [key, printCalls_append]
    simp [printCalls]
  · rw [key, logged_append]
    simp [logged]

/-- C7: `HumanPrinter.print` calls `message.print()` exactly once, never calls
`message.protoMessage()` nor `printJSON`, and returns a nil error. -/
theorem HumanPrinter_print_spec (message : Printable M) (w : World Req M) :
    HumanPrinter.print message w =
      (none, ⟨w.globals, w.trace ++
        Event.print :: (message.print w.globals).map Event.log⟩) ∧
    (HumanPrinter.print message w).1 = none ∧
    printCalls (HumanPrinter.print message w).2.trace = printCalls w.trace + 1 ∧
    protoMessageCalls (HumanPrinter.print message w).2.trace =
      protoMessageCalls w.trace ∧
    printJSONCalls (HumanPrinter.print message w).2.trace = printJSONCalls w.trace ∧
    logged (HumanPrinter.print message w).2.trace =
      logged w.trace ++ message.print w.globals := by
  have key : HumanPrinter.print message w =
      (none, ⟨w.globals, w.trace ++
        Event.print :: (message.print w.globals).map Event.log⟩) := rfl
  refine ⟨key, rfl, ?_, ?_, ?_, ?_⟩
  · rw [key]
    show printCalls (w.trace ++ ([Event.print] ++ _)) = _
    rw [printCalls_append, printCalls_append, printCalls_log]
    rfl
  · rw [key]
    show protoMessageCalls (w.trace ++ ([Event.print] ++ _)) = _
    rw [protoMessageCalls_append, protoMessageCalls_append, protoMessageCalls_log]
    rfl
  · rw [key]
    show printJSONCalls (w.trace ++ ([Event.print] ++ _)) = _
    rw [printJSONCalls_append, printJSONCalls_append, printJSONCalls_log]
    rfl
  · rw [key]
    show logged (w.trace ++ ([Event.print] ++ _)) = _
    rw [logged_append, logged_append, logged_log]
    rfl

/-! ## RunE -/

/-- RunE when the printer is found: the three later steps, on the unchanged world. -/
theorem RunE_of_printer (env : Env Req M) (w : World Req M) (p : Printer)
    (hp : w.globals.outputMap.lookup w.globals.outputFlag = some p) :
    RunE env w =
      match env.variablesFromString w.globals.completeJobKey
          w.globals.completeJobVariablesFlag with
      | Except.error err =>
        (some err, w.emit (Event.construct w.globals.completeJobKey
          w.globals.completeJobVariablesFlag))
      | Except.ok request =>
        match env.send request with
        | Except.error err =>
          (some err, (w.emit (Event.construct w.globals.completeJobKey
            w.globals.completeJobVariablesFlag)).emit (Event.send request))
        | Except.ok resp =>
          Printer.print env p (CompleteJobResponseWrapper resp)
            ((w.emit (Event.construct w.globals.completeJobKey
              w.globals.completeJobVariablesFlag)).emit (Event.send request)) := by
  simp only [RunE, findPrinter, hp, newCompleteJobCommand, send]
  cases env.variablesFromString w.globals.completeJobKey
      w.globals.completeJobVariablesFlag with
  | error err => rfl
  | ok request =>
    simp only [World.emit]
    cases env.send request <;> rfl

/-- C2: when `outputFlag` names no registered printer, RunE returns the error of
`findPrinter` and leaves the world as it was: no request construction, no Send, no
printer call, nothing logged, whatever the key and the variables text. -/
theorem RunE_unknown_output (env : Env Req M) (w : World Req M)
    (h : w.globals.outputMap.lookup w.globals.outputFlag = none) :
    (findPrinter w).1 =
      Except.error ("cannot find proper printer for " ++ w.globals.outputFlag ++ " output") ∧
    RunE env w =
      (some ("cannot find proper printer for " ++ w.globals.outputFlag ++ " output"), w) ∧
    constructCalls (RunE env w).2.trace = constructCalls w.trace ∧
    sendCalls (RunE env w).2.trace = sendCalls w.trace ∧
    printerCalls (RunE env w).2.trace = printerCalls w.trace ∧
    printJSONCalls (RunE env w).2.trace = printJSONCalls w.trace ∧
    logged (RunE env w).2.trace = logged w.trace := by
  have key : RunE env w =
      (some ("cannot find proper printer for " ++ w.globals.outputFlag ++ " output"), w) := by
    simp only [RunE, findPrinter, h]
  refine ⟨by simp only [findPrinter, h], key, ?_, ?_, ?_, ?_, ?_⟩ <;> rw [key]

/-- C3: with a registered output mode, when the request builder rejects the
variables text RunE returns the builder error; Send is not called, no printer is
called and nothing is logged or serialized. -/
theorem RunE_construction_error (env : Env Req M) (w : World Req M) (p : Printer)
    (err : Err)
    (hp : w.globals.outputMap.lookup w.globals.outputFlag = some p)
    (hc : env.variablesFromString w.globals.completeJobKey
      w.globals.completeJobVariablesFlag = Except.error err) :
    RunE env w =
      (some err, ⟨w.globals, w.trace ++
        [Event.construct w.globals.completeJobKey w.globals.completeJobVariablesFlag]⟩) ∧
    sendCalls (RunE env w).2.trace = sendCalls w.trace ∧
    printerCalls (RunE env w).2.trace = printerCalls w.trace ∧
    printCalls (RunE env w).2.trace = printCalls w.trace ∧
    printJSONCalls (RunE env w).2.trace = printJSONCalls w.trace ∧
    logged (RunE env w).2.trace = logged w.trace := by
  have key : RunE env w =
      (some err, ⟨w.globals, w.trace ++
        [Event.construct w.globals.completeJobKey w.globals.completeJobVariablesFlag]⟩) := by
    rw [RunE_of_printer env w p hp, hc]
    rfl
  refine ⟨key, ?_, ?_, ?_, ?_, ?_⟩ <;> rw [key]
  · rw [sendCalls_append]; rfl
  · rw [printerCalls_append]; rfl
  · rw [printCalls_append]; rfl
  · rw [printJSONCalls_append]; rfl
  · rw [logged_append]; simp [logged]

/-- C4: when the printer is found and the request is built but Send fails, RunE
returns exactly the error of Send; Send was called once, no printer was called and
nothing was logged or serialized. -/
theorem RunE_send_error (env : Env Req M) (w : World Req M) (p : Printer)
    (request : Req) (err : Err)
    (hp : w.globals.outputMap.lookup w.globals.outputFlag = some p)
    (hc : env.variablesFromString w.globals.completeJobKey
      w.globals.completeJobVariablesFlag = Except.ok request)
    (hs : env.send request = Except.error err) :
    RunE env w =
      (some err, ⟨w.globals, w.trace ++
        [Event.construct w.globals.completeJobKey w.globals.completeJobVariablesFlag,
          Event.send request]⟩) ∧
    sendCalls (RunE env w).2.trace = sendCalls w.trace + 1 ∧
    printerCalls (RunE env w).2.trace = printerCalls w.trace ∧
    printCalls (RunE env w).2.trace = printCalls w.trace ∧
    printJSONCalls (RunE env w).2.trace = printJSONCalls w.trace ∧
    logged (RunE env w).2.trace = logged w.trace := by
  have key : RunE env w =
      (some err, ⟨w.globals, w.trace ++
        [Event.construct w.globals.completeJobKey w.globals.completeJobVariablesFlag,
          Event.send request]⟩) := by
    rw [RunE_of_printer env w p hp, hc]
    simp only [hs, World.emit, List.append_assoc, List.singleton_append]
  refine ⟨key, ?_, ?_, ?_, ?_, ?_⟩ <;> rw [key]
  · rw [sendCalls_append]; rfl
  · rw [printerCalls_append]; rfl
  · rw [printCalls_append]; rfl
  · rw [printJSONCalls_append]; rfl
  · rw [logged_append]; simp [logged]

/-- C5: when the printer is found, the request is built and Send answers `resp`,
RunE calls Send once, calls the print method of the resolved printer once, on the
wrapper of `resp`, and returns what that call returns: nil from the HumanPrinter,
the result of `printJSON resp` from the JSONPrinter. -/
theorem RunE_success (env : Env Req M) (w : World Req M) (p : Printer)
    (request : Req) (resp : M)
    (hp : w.globals.outputMap.lookup w.globals.outputFlag = some p)
    (hc : env.variablesFromString w.globals.completeJobKey
      w.globals.completeJobVariablesFlag = Except.ok request)
    (hs : env.send request = Except.ok resp) :
    RunE env w =
      Printer.print env p (CompleteJobResponseWrapper resp)
        ⟨w.globals, w.trace ++
          [Event.construct w.globals.completeJobKey w.globals.completeJobVariablesFlag,
            Event.send request]⟩ ∧
    sendCalls (RunE env w).2.trace = sendCalls w.trace + 1 ∧
    printerCalls (RunE env w).2.trace = printerCalls w.trace + 1 ∧
    (p = Printer.HumanPrinter →
      RunE env w =
        (none, ⟨w.globals, w.trace ++
          [Event.construct w.globals.completeJobKey w.globals.completeJobVariablesFlag,
            Event.send request,
            Event.printerPrint Printer.HumanPrinter (CompleteJobResponseWrapper resp),
            Event.print,
            Event.log ("Completed job with key " ++ toString w.globals.completeJobKey
              ++ " and variables " ++ w.globals.completeJobVariablesFlag ++ "\n")]⟩)) ∧
    (p = Printer.JSONPrinter →
      RunE env w =
        (env.printJSON resp, ⟨w.globals, w.trace ++
          [Event.construct w.globals.completeJobKey w.globals.completeJobVariablesFlag,
            Event.send request,
            Event.printerPrint Printer.JSONPrinter (CompleteJobResponseWrapper resp),
            Event.protoMessage,
            Event.printJSON resp]⟩)) := by
  have key : RunE env w =
      Printer.print env p (CompleteJobResponseWrapper resp)
        ⟨w.globals, w.trace ++
          [Event.construct w.globals.completeJobKey w.globals.completeJobVariablesFlag,
            Event.send request]⟩ := by
    rw [RunE_of_printer env w p hp, hc]
    simp only [hs, World.emit, List.append_assoc, List.singleton_append]
  have hH : p = Printer.HumanPrinter →
      RunE env w =
        (none, ⟨w.globals, w.trace ++
          [Event.construct w.globals.completeJobKey w.globals.completeJobVariablesFlag,
            Event.send request,
            Event.printerPrint Printer.HumanPrinter (CompleteJobResponseWrapper resp),
            Event.print,
            Event.log ("Completed job with key " ++ toString w.globals.completeJobKey
              ++ " and variables " ++ w.globals.completeJobVariablesFlag ++ "\n")]⟩) := by
    intro h
    rw [key, h]
    simp [Printer.print, HumanPrinter.print, Printable.callPrint, World.emit,
      CompleteJobResponseWrapper, wrapper_print_text]
  have hJ : p = Printer.JSONPrinter →
      RunE env w =
        (env.printJSON resp, ⟨w.globals, w.trace ++
          [Event.construct w.globals.completeJobKey w.globals.completeJobVariablesFlag,
            Event.send request,
            Event.printerPrint Printer.JSONPrinter (CompleteJobResponseWrapper resp),
            Event.protoMessage,
            Event.printJSON resp]⟩) := by
    intro h
    rw [key, h]
    simp [Printer.print, JSONPrinter.print, Printable.callProtoMessage, printJSON,
      World.emit, CompleteJobResponseWrapper]
  refine ⟨key, ?_, ?_, hH, hJ⟩
  · cases p with
    | HumanPrinter => rw [hH rfl, sendCalls_append]; rfl
    | JSONPrinter => rw [hJ rfl, sendCalls_append]; rfl
  · cases p with
    | HumanPrinter => rw [hH rfl, printerCalls_append]; rfl
    | JSONPrinter => rw [hJ rfl, printerCalls_append]; rfl

theorem constructed_append (s t : List (Event Req M)) :
    constructed (s ++ t) = constructed s ++ constructed t := by
  simp [constructed, List.filterMap_append]

/-- With a registered output mode RunE constructs exactly one request, from the two
package variables, whatever the later steps do. -/
theorem constructed_RunE (env : Env Req M) (w : World Req M) (p : Printer)
    (hp : w.globals.outputMap.lookup w.globals.outputFlag = some p) :
    constructed (RunE env w).2.trace =
      constructed w.trace ++
        [(w.globals.completeJobKey, w.globals.completeJobVariablesFlag)] := by
  rw [RunE_of_printer env w p hp]
  cases hc : env.variablesFromString w.globals.completeJobKey
      w.globals.completeJobVariablesFlag with
  | error err => simp [World.emit, constructed]
  | ok request =>
    cases hs : env.send request with
    | error err => simp [hs, World.emit, constructed]
    | ok resp =>
      simp only [hs]
      cases p with
      | HumanPrinter =>
        have hlog : ∀ rs : List String,
            constructed (rs.map (Event.log : String → Event Req M)) = [] := by
          intro rs
          induction rs with
          | nil => rfl
          | cons r rs _ => simp [constructed]
        show constructed (_ ++ ([Event.print] ++ List.map Event.log _)) = _
        rw [constructed_append, constructed_append, hlog]
        simp [World.emit, constructed]
      | JSONPrinter =>
        simp [World.emit, constructed, Printer.print, JSONPrinter.print,
          Printable.callProtoMessage, printJSON]

/-- C2 at a concrete run: output mode "xml". -/
theorem RunE_unknown_output_witness :
    (stubWorld "xml" 42 "\x7b\x7d").globals.outputMap.lookup
        (stubWorld "xml" 42 "\x7b\x7d").globals.outputFlag = none ∧
      RunE (stubEnv none none none) (stubWorld "xml" 42 "\x7b\x7d") =
        (some "cannot find proper printer for xml output",
          stubWorld "xml" 42 "\x7b\x7d") :=
  ⟨by decide,
    (RunE_unknown_output (stubEnv none none none) (stubWorld "xml" 42 "\x7b\x7d")
      (by decide)).2.1⟩

/-- C3 at a concrete run: the builder rejects the text `nojson`. -/
theorem RunE_construction_error_witness :
    (stubWorld "json" 42 "nojson").globals.outputMap.lookup
        (stubWorld "json" 42 "nojson").globals.outputFlag = some Printer.JSONPrinter ∧
      (stubEnv (some "invalid JSON") none none).variablesFromString 42 "nojson" =
        Except.error "invalid JSON" ∧
      RunE (stubEnv (some "invalid JSON") none none) (stubWorld "json" 42 "nojson") =
        (some "invalid JSON",
          ⟨(stubWorld "json" 42 "nojson").globals, [Event.construct 42 "nojson"]⟩) :=
  ⟨by decide, rfl,
    (RunE_construction_error (stubEnv (some "invalid JSON") none none)
      (stubWorld "json" 42 "nojson") Printer.JSONPrinter "invalid JSON"
      (by decide) rfl).1⟩

/-- C4 at a concrete run: Send fails with a deadline error. -/
theorem RunE_send_error_witness :
    (stubWorld "human" 42 "\x7b\x7d").globals.outputMap.lookup
        (stubWorld "human" 42 "\x7b\x7d").globals.outputFlag =
          some Printer.HumanPrinter ∧
      (stubEnv none (some "deadline exceeded") none).variablesFromString 42 "\x7b\x7d" =
        Except.ok (42, "\x7b\x7d") ∧
      (stubEnv none (some "deadline exceeded") none).send (42, "\x7b\x7d") =
        Except.error "deadline exceeded" ∧
      RunE (stubEnv none (some "deadline exceeded") none)
          (stubWorld "human" 42 "\x7b\x7d") =
        (some "deadline exceeded",
          ⟨(stubWorld "human" 42 "\x7b\x7d").globals,
            [Event.construct 42 "\x7b\x7d", Event.send (42, "\x7b\x7d")]⟩) :=
  ⟨by decide, rfl, rfl,
    (RunE_send_error (stubEnv none (some "deadline exceeded") none)
      (stubWorld "human" 42 "\x7b\x7d") Printer.HumanPrinter (42, "\x7b\x7d")
      "deadline exceeded" (by decide) rfl rfl).1⟩

/-- C5 at a concrete run: json mode, the serializer reports an error, and RunE
returns it after one Send. -/
theorem RunE_success_witness :
    (stubWorld "json" 42 "\x7b\x7d").globals.outputMap.lookup
        (stubWorld "json" 42 "\x7b\x7d").globals.outputFlag =
          some Printer.JSONPrinter ∧
      (stubEnv none none (some "cannot marshal")).variablesFromString 42 "\x7b\x7d" =
        Except.ok (42, "\x7b\x7d") ∧
      (stubEnv none none (some "cannot marshal")).send (42, "\x7b\x7d") =
        Except.ok "\x7b\x7d" ∧
      RunE (stubEnv none none (some "cannot marshal")) (stubWorld "json" 42 "\x7b\x7d") =
        (some "cannot marshal",
          ⟨(stubWorld "json" 42 "\x7b\x7d").globals,
            [Event.construct 42 "\x7b\x7d", Event.send (42, "\x7b\x7d"),
              Event.printerPrint Printer.JSONPrinter
                (CompleteJobResponseWrapper "\x7b\x7d"),
              Event.protoMessage, Event.printJSON "\x7b\x7d"]⟩) :=
  ⟨by decide, rfl, rfl,
    (RunE_success (stubEnv none none (some "cannot marshal"))
      (stubWorld "json" 42 "\x7b\x7d") Printer.JSONPrinter (42, "\x7b\x7d") "\x7b\x7d"
      (by decide) rfl rfl).2.2.2.2 rfl⟩

/-! ## The defaults of the flags -/

/-- C9: after `init`, when the command line gives no `variables` flag the request is
constructed from the key and the text of an empty JSON object; when the flag is
given, from the key and exactly the text given. In both cases RunE constructs one
request. -/
theorem variables_payload (env : Env Req M) (inv : Invocation) (k : Int) (p : Printer)
    (hp : outputMap.lookup (parseFlags inv (init zeroGlobals)).outputFlag = some p) :
    (inv.variablesFlag = none →
      (parseFlags inv (init zeroGlobals)).completeJobVariablesFlag = "\x7b\x7d" ∧
      constructed (RunE env (⟨{ parseFlags inv (init zeroGlobals) with
        completeJobKey := k }, []⟩ : World Req M)).2.trace = [(k, "\x7b\x7d")]) ∧
    (∀ v, inv.variablesFlag = some v →
      (parseFlags inv (init zeroGlobals)).completeJobVariablesFlag = v ∧
      constructed (RunE env (⟨{ parseFlags inv (init zeroGlobals) with
        completeJobKey := k }, []⟩ : World Req M)).2.trace = [(k, v)]) := by
  have hmap : (parseFlags inv (init zeroGlobals)).outputMap = outputMap := by
    unfold parseFlags
    cases inv.output <;> cases inv.variablesFlag <;> rfl
  have hrun : constructed (RunE env (⟨{ parseFlags inv (init zeroGlobals) with
        completeJobKey := k }, []⟩ : World Req M)).2.trace =
      [(k, (parseFlags inv (init zeroGlobals)).completeJobVariablesFlag)] := by
    rw [constructed_RunE env _ p (by simpa [hmap] using hp)]
    rfl
  constructor
  · intro h
    have hv : (parseFlags inv (init zeroGlobals)).completeJobVariablesFlag =
        "\x7b\x7d" := by
      unfold parseFlags
      rw [h]
      cases inv.output <;> rfl
    exact ⟨hv, by rw [hrun, hv]⟩
  · intro v h
    have hv : (parseFlags inv (init zeroGlobals)).completeJobVariablesFlag = v := by
      unfold parseFlags
      rw [h]
    exact ⟨hv, by rw [hrun, hv]⟩

/-- C9 at two concrete command lines for key 42: no flag, and `--variables` with
the text of a one-field object. -/
theorem variables_payload_witness :
    outputMap.lookup (parseFlags ⟨["42"], none, none⟩ (init zeroGlobals)).outputFlag =
        some Printer.HumanPrinter ∧
      constructed (RunE (stubEnv none none none) ⟨{ parseFlags ⟨["42"], none, none⟩
          (init zeroGlobals) with completeJobKey := 42 }, []⟩).2.trace =
        [(42, "\x7b\x7d")] ∧
      outputMap.lookup (parseFlags ⟨["42"], some "json", some "\x7b\"a\":1\x7d"⟩
          (init zeroGlobals)).outputFlag = some Printer.JSONPrinter ∧
      constructed (RunE (stubEnv none none none)
          ⟨{ parseFlags ⟨["42"], some "json", some "\x7b\"a\":1\x7d"⟩
            (init zeroGlobals) with completeJobKey := 42 }, []⟩).2.trace =
        [(42, "\x7b\"a\":1\x7d")] :=
  ⟨by decide,
    ((variables_payload (stubEnv none none none) ⟨["42"], none, none⟩ 42
      Printer.HumanPrinter (by decide)).1 rfl).2,
    by decide,
    ((variables_payload (stubEnv none none none)
      ⟨["42"], some "json", some "\x7b\"a\":1\x7d"⟩ 42
      Printer.JSONPrinter (by decide)).2 _ rfl).2⟩

/-! ## Key validation -/

theorem decimalValue_nil : decimalValue [] = 0 := rfl

theorem decimalValue_cons (c : Char) (cs : List Char) :
    decimalValue (c :: cs) = (c.toNat - 48) * 10 ^ cs.length + decimalValue cs := by
  unfold decimalValue
  rw [List.reverse_cons, List.map_append, Nat.ofDigits_append]
  simp [Nat.ofDigits_singleton, Nat.mul_comm, Nat.add_comm]

theorem digitValue_eq_some (c : Char) (d : Nat) :
    digitValue c = some d ↔ c.isDigit = true ∧ d = c.toNat - 48 := by
  unfold digitValue
  by_cases h : c.isDigit = true
  · simp [h, eq_comm]
  · simp [h]

theorem parseDigits_of_digits (cs : List Char) :
    ∀ acc : Nat, (∀ c ∈ cs, c.isDigit = true) →
      parseDigits cs acc = some (acc * 10 ^ cs.length + decimalValue cs) := by
  induction cs with
  | nil =>
    intro acc _
    simp [parseDigits, decimalValue_nil]
  | cons c cs ih =>
    intro acc h
    have hc : digitValue c = some (c.toNat - 48) :=
      (digitValue_eq_some c _).mpr ⟨h c (List.mem_cons_self c cs), rfl⟩
    have hrest : ∀ x ∈ cs, x.isDigit = true := fun x hx => h x (List.mem_cons_of_mem c hx)
    simp only [parseDigits, hc]
    rw [ih _ hrest, decimalValue_cons]
    congr 1
    simp only [List.length_cons, pow_succ]
    ring

theorem digits_of_parseDigits (cs : List Char) :
    ∀ acc r : Nat, parseDigits cs acc = some r → ∀ c ∈ cs, c.isDigit = true := by
  induction cs with
  | nil =>
    intro _ _ _ c hc
    cases hc
  | cons c cs ih =>
    intro acc r h x hx
    unfold parseDigits at h
    cases hd : digitValue c with
    | none => simp [hd] at h
    | some d =>
      simp only [hd] at h
      rcases List.mem_cons.mp hx with rfl | hx
      · exact ((digitValue_eq_some _ _).mp hd).1
      · exact ih _ _ h x hx

theorem parseNat_eq_some (cs : List Char) (n : Nat) :
    parseNat cs = some n ↔
      cs ≠ [] ∧ (∀ c ∈ cs, c.isDigit = true) ∧ n = decimalValue cs := by
  unfold parseNat
  by_cases hnil : cs = []
  · simp [hnil]
  · simp only [hnil, if_false, ne_eq, not_false_eq_true, true_and]
    constructor
    · intro h
      have hd := digits_of_parseDigits cs 0 n h
      rw [parseDigits_of_digits cs 0 hd] at h
      simp at h
      exact ⟨hd, h.symm⟩
    · rintro ⟨hd, rfl⟩
      rw [parseDigits_of_digits cs 0 hd]
      simp

theorem parseInt64_minus (s : String) (cs : List Char) (h : s.data = '-' :: cs) :
    parseInt64 s =
      match parseNat cs with
      | some n => if n ≤ 2 ^ 63 then some (-(n : Int)) else none
      | none => none := by
  unfold parseInt64
  split
  · rename_i cs2 h2
    rw [h] at h2
    cases h2
    rfl
  · rename_i cs2 h2
    rw [h] at h2
    exact absurd (List.cons.inj h2).1 (by decide)
  · rename_i h1 h2
    exact absurd h (h1 cs)

theorem parseInt64_plus (s : String) (cs : List Char) (h : s.data = '+' :: cs) :
    parseInt64 s =
      match parseNat cs with
      | some n => if n < 2 ^ 63 then some (n : Int) else none
      | none => none := by
  unfold parseInt64
  split
  · rename_i cs2 h2
    rw [h] at h2
    exact absurd (List.cons.inj h2).1 (by decide)
  · rename_i cs2 h2
    rw [h] at h2
    cases h2
    rfl
  · rename_i h1 h2
    exact absurd h (h2 cs)

theorem parseInt64_plain (s : String) (h1 : ∀ cs, s.data ≠ '-' :: cs)
    (h2 : ∀ cs, s.data ≠ '+' :: cs) :
    parseInt64 s =
      match parseNat s.data with
      | some n => if n < 2 ^ 63 then some (n : Int) else none
      | none => none := by
  unfold parseInt64
  split
  · exact absurd ‹_› (h1 _)
  · exact absurd ‹_› (h2 _)
  · rfl

theorem isInt64Text_of_parseInt64 (s : String) (n : Int) (h : parseInt64 s = some n) :
    IsInt64Text s n := by
  have e2 : (2 : Int) ^ 63 = 9223372036854775808 := by norm_num
  have n2 : (2 : Nat) ^ 63 = 9223372036854775808 := by norm_num
  by_cases h1 : ∃ cs, s.data = '-' :: cs
  · obtain ⟨cs, hcs⟩ := h1
    rw [parseInt64_minus s cs hcs] at h
    cases hp : parseNat cs with
    | none => simp [hp] at h
    | some m =>
      simp only [hp] at h
      by_cases hm : m ≤ 2 ^ 63
      · simp only [hm, if_true, Option.some.injEq] at h
        obtain ⟨hne, hd, hv⟩ := (parseNat_eq_some cs m).mp hp
        refine ⟨cs, hne, hd, Or.inr ⟨hcs, ?_⟩, ?_, ?_⟩
        · rw [← h, hv]
        · rw [e2]; rw [n2] at hm; omega
        · rw [e2]; omega
      · rw [if_neg hm] at h
        cases h
  · by_cases h2 : ∃ cs, s.data = '+' :: cs
    · obtain ⟨cs, hcs⟩ := h2
      rw [parseInt64_plus s cs hcs] at h
      cases hp : parseNat cs with
      | none => simp [hp] at h
      | some m =>
        simp only [hp] at h
        by_cases hm : m < 2 ^ 63
        · simp only [hm, if_true, Option.some.injEq] at h
          obtain ⟨hne, hd, hv⟩ := (parseNat_eq_some cs m).mp hp
          refine ⟨cs, hne, hd, Or.inl ⟨Or.inr hcs, ?_⟩, ?_, ?_⟩
          · rw [← h, hv]
          · rw [e2]; omega
          · rw [e2]; rw [n2] at hm; omega
        · rw [if_neg hm] at h
          cases h
    · rw [parseInt64_plain s (fun cs hcs => h1 ⟨cs, hcs⟩) (fun cs hcs => h2 ⟨cs, hcs⟩)] at h
      cases hp : parseNat s.data with
      | none => simp [hp] at h
      | some m =>
        simp only [hp] at h
        by_cases hm : m < 2 ^ 63
        · simp only [hm, if_true, Option.some.injEq] at h
          obtain ⟨hne, hd, hv⟩ := (parseNat_eq_some s.data m).mp hp
          refine ⟨s.data, hne, hd, Or.inl ⟨Or.inl rfl, ?_⟩, ?_, ?_⟩
          · rw [← h, hv]
          · rw [e2]; omega
          · rw [e2]; rw [n2] at hm; omega
        · rw [if_neg hm] at h
          cases h

theorem parseInt64_of_isInt64Text (s : String) (n : Int) (h : IsInt64Text s n) :
    parseInt64 s = some n := by
  have e2 : (2 : Int) ^ 63 = 9223372036854775808 := by norm_num
  have n2 : (2 : Nat) ^ 63 = 9223372036854775808 := by norm_num
  obtain ⟨body, hne, hd, hshape, hlo, hhi⟩ := h
  have hp : parseNat body = some (decimalValue body) :=
    (parseNat_eq_some body _).mpr ⟨hne, hd, rfl⟩
  rw [e2] at hlo hhi
  rcases hshape with ⟨hs | hs, hn⟩ | ⟨hs, hn⟩
  · have hm : ∀ cs, s.data ≠ '-' :: cs := by
      intro cs hcs
      have := hd '-' (by rw [← hs, hcs]; exact List.mem_cons_self _ _)
      exact absurd this (by decide)
    have hpl : ∀ cs, s.data ≠ '+' :: cs := by
      intro cs hcs
      have := hd '+' (by rw [← hs, hcs]; exact List.mem_cons_self _ _)
      exact absurd this (by decide)
    rw [parseInt64_plain s hm hpl, hs, hp]
    have hlt : decimalValue body < 2 ^ 63 := by rw [n2]; omega
    show (if decimalValue body < 2 ^ 63 then some (decimalValue body : Int) else none) = _
    rw [if_pos hlt, hn]
  · rw [parseInt64_plus s body hs, hp]
    have hlt : decimalValue body < 2 ^ 63 := by rw [n2]; omega
    show (if decimalValue body < 2 ^ 63 then some (decimalValue body : Int) else none) = _
    rw [if_pos hlt, hn]
  · rw [parseInt64_minus s body hs, hp]
    have hle : decimalValue body ≤ 2 ^ 63 := by rw [n2]; omega
    show (if decimalValue body ≤ 2 ^ 63 then some (-(decimalValue body : Int)) else none) = _
    rw [if_pos hle, hn]

/-- The parser accepts exactly the valid 64-bit integer texts, with their value. -/
theorem parseInt64_iff (s : String) (n : Int) :
    parseInt64 s = some n ↔ IsInt64Text s n :=
  ⟨isInt64Text_of_parseInt64 s n, parseInt64_of_isInt64Text s n⟩

/-! ### Decimal rendering is read back exactly -/

theorem digitChar_digit (d : Nat) (h : d < 10) :
    (Nat.digitChar d).isDigit = true ∧ (Nat.digitChar d).toNat - 48 = d := by
  interval_cases d <;> exact ⟨by decide, by decide⟩

theorem decimalValue_snoc (cs : List Char) (c : Char) :
    decimalValue (cs ++ [c]) = 10 * decimalValue cs + (c.toNat - 48) := by
  unfold decimalValue
  simp [Nat.ofDigits_cons, Nat.add_comm]

theorem toDigitsCore_append (fuel : Nat) :
    ∀ (n : Nat) (ds : List Char),
      Nat.toDigitsCore 10 fuel n ds = Nat.toDigitsCore 10 fuel n [] ++ ds := by
  induction fuel with
  | zero =>
    intro n ds
    simp [Nat.toDigitsCore]
  | succ fuel ih =>
    intro n ds
    simp only [Nat.toDigitsCore]
    by_cases h : n / 10 = 0
    · simp [h]
    · simp only [h, if_false]
      rw [ih (n / 10) (Nat.digitChar (n % 10) :: ds), ih (n / 10) [Nat.digitChar (n % 10)]]
      simp

theorem toDigitsCore_value (fuel : Nat) :
    ∀ n : Nat, n < fuel →
      Nat.toDigitsCore 10 fuel n [] ≠ [] ∧
      (∀ c ∈ Nat.toDigitsCore 10 fuel n [], c.isDigit = true) ∧
      decimalValue (Nat.toDigitsCore 10 fuel n []) = n := by
  induction fuel with
  | zero =>
    intro n h
    exact absurd h (Nat.not_lt_zero n)
  | succ fuel ih =>
    intro n hn
    have hd := digitChar_digit (n % 10) (Nat.mod_lt n (by decide))
    simp only [Nat.toDigitsCore]
    by_cases h : n / 10 = 0
    · simp only [h, if_true]
      refine ⟨by simp, ?_, ?_⟩
      · intro c hc
        rw [List.mem_singleton.mp hc]
        exact hd.1
      · rw [decimalValue_cons, decimalValue_nil, hd.2]
        simp only [List.length_nil, pow_zero]
        omega
    · simp only [h, if_false]
      rw [toDigitsCore_append fuel (n / 10) [Nat.digitChar (n % 10)]]
      have hlt : n / 10 < fuel := by omega
      obtain ⟨_, hdig, hval⟩ := ih (n / 10) hlt
      refine ⟨by simp, ?_, ?_⟩
      · intro c hc
        rcases List.mem_append.mp hc with hc | hc
        · exact hdig c hc
        · rw [List.mem_singleton.mp hc]
          exact hd.1
      · rw [decimalValue_snoc, hval, hd.2]
        omega

theorem toDigits_value (n : Nat) :
    Nat.toDigits 10 n ≠ [] ∧ (∀ c ∈ Nat.toDigits 10 n, c.isDigit = true) ∧
      decimalValue (Nat.toDigits 10 n) = n :=
  toDigitsCore_value (n + 1) n (Nat.lt_succ_self n)

/-- The decimal rendering of an integer of the signed 64-bit range is a valid 64-bit
integer text denoting that integer. -/
theorem isInt64Text_toString (n : Int) (hlo : -(2 : Int) ^ 63 ≤ n)
    (hhi : n < (2 : Int) ^ 63) : IsInt64Text (toString n) n := by
  cases n with
  | ofNat m =>
    refine ⟨Nat.toDigits 10 m, ?_, ?_, Or.inl ⟨Or.inl rfl, ?_⟩, hlo, hhi⟩
    · exact (toDigits_value m).1
    · exact (toDigits_value m).2.1
    · rw [(toDigits_value m).2.2]
      rfl
  | negSucc m =>
    refine ⟨Nat.toDigits 10 (m + 1), ?_, ?_, Or.inr ⟨rfl, ?_⟩, hlo, hhi⟩
    · exact (toDigits_value (m + 1)).1
    · exact (toDigits_value (m + 1)).2.1
    · rw [(toDigits_value (m + 1)).2.2]
      rfl

theorem keyArg_of_parse (w : World Req M) (s : String) (n : Int)
    (h : parseInt64 s = some n) :
    keyArg [s] w =
      (none, { w with globals := { w.globals with completeJobKey := n } }) := by
  simp only [keyArg, h]

theorem keyArg_of_reject (w : World Req M) (s : String) (h : parseInt64 s = none) :
    keyArg [s] w = (some ("invalid argument " ++ s ++ " for key"), w) := by
  simp only [keyArg, h]

/-- C10: for every text that is a valid 64-bit signed integer, `keyArg` succeeds and
stores exactly the integer the text denotes in `completeJobKey`; in particular the
decimal rendering of every integer of the signed 64-bit range is read back as that
integer, and whatever `keyArg` accepts lies in that range. For every text that is not
a valid 64-bit integer, such as "notanumber" or the two decimals just outside the
range, `keyArg` fails with an error naming the text, the package variables stay as
they were, and the run ends there: RunE is not entered and the trace stays empty. -/
theorem keyArg_validates (env : Env Req M) (w : World Req M) (s : String)
    (output vflag : Option String) :
    (∀ n, IsInt64Text s n →
      keyArg [s] w =
        (none, { w with globals := { w.globals with completeJobKey := n } }) ∧
      (env.initClient = none →
        execute env ⟨[s], output, vflag⟩ =
          RunE env ⟨{ parseFlags ⟨[s], output, vflag⟩ (init zeroGlobals) with
            completeJobKey := n }, []⟩)) ∧
    (∀ n : Int, -(2 : Int) ^ 63 ≤ n → n < (2 : Int) ^ 63 →
      keyArg [toString n] w =
        (none, { w with globals := { w.globals with completeJobKey := n } })) ∧
    (∀ w2, keyArg [s] w = (none, w2) →
      IsInt64Text s w2.globals.completeJobKey ∧
      -(2 : Int) ^ 63 ≤ w2.globals.completeJobKey ∧
      w2.globals.completeJobKey < (2 : Int) ^ 63) ∧
    ((¬ ∃ n, IsInt64Text s n) →
      keyArg [s] w = (some ("invalid argument " ++ s ++ " for key"), w) ∧
      execute env ⟨[s], output, vflag⟩ =
        (some ("invalid argument " ++ s ++ " for key"),
          ⟨parseFlags ⟨[s], output, vflag⟩ (init zeroGlobals), []⟩)) ∧
    keyArg ["42"] w =
      (none, { w with globals := { w.globals with completeJobKey := 42 } }) ∧
    keyArg ["9223372036854775807"] w =
      (none, { w with globals :=
        { w.globals with completeJobKey := 9223372036854775807 } }) ∧
    keyArg ["-9223372036854775808"] w =
      (none, { w with globals :=
        { w.globals with completeJobKey := -9223372036854775808 } }) ∧
    keyArg ["notanumber"] w = (some "invalid argument notanumber for key", w) ∧
    keyArg ["9223372036854775808"] w =
      (some "invalid argument 9223372036854775808 for key", w) ∧
    keyArg ["-9223372036854775809"] w =
      (some "invalid argument -9223372036854775809 for key", w) ∧
    keyArg ["18446744073709551658"] w =
      (some "invalid argument 18446744073709551658 for key", w) := by
  refine ⟨?_, ?_, ?_, ?_, ?_, ?_, ?_, ?_, ?_, ?_, ?_⟩
  · intro n hn
    have hp := parseInt64_of_isInt64Text s n hn
    refine ⟨keyArg_of_parse w s n hp, ?_⟩
    intro hc
    simp only [execute, keyArg_of_parse _ s n hp, hc]
  · intro n hlo hhi
    exact keyArg_of_parse w _ n
      (parseInt64_of_isInt64Text _ n (isInt64Text_toString n hlo hhi))
  · intro w2 h
    cases hp : parseInt64 s with
    | none =>
      rw [keyArg_of_reject w s hp] at h
      cases h
    | some n =>
      rw [keyArg_of_parse w s n hp] at h
      have hw : w2 = { w with globals := { w.globals with completeJobKey := n } } :=
        (congrArg Prod.snd h).symm
      have ht := isInt64Text_of_parseInt64 s n hp
      subst hw
      obtain ⟨_, _, _, _, hlo, hhi⟩ := ht
      exact ⟨isInt64Text_of_parseInt64 s n hp, hlo, hhi⟩
  · intro hno
    have hp : parseInt64 s = none := by
      cases hq : parseInt64 s with
      | none => rfl
      | some n => exact absurd ⟨n, isInt64Text_of_parseInt64 s n hq⟩ hno
    refine ⟨keyArg_of_reject w s hp, ?_⟩
    simp only [execute, keyArg_of_reject _ s hp]
  · exact keyArg_of_parse w _ _ (by decide)
  · exact keyArg_of_parse w _ _ (by decide)
  · exact keyArg_of_parse w _ _ (by decide)
  · exact keyArg_of_reject w _ (by decide)
  · exact keyArg_of_reject w _ (by decide)
  · exact keyArg_of_reject w _ (by decide)
  · exact keyArg_of_reject w _ (by decide)

/-! ## The human summary -/

theorem splitLines_closed (xs : List Char) (h : '\n' ∉ xs) :
    splitLines (xs ++ ['\n']) = [xs] := by
  induction xs with
  | nil => simp [splitLines]
  | cons c cs ih =>
    have hc : c ≠ '\n' := fun e => h (e ▸ List.mem_cons_self _ _)
    have hcs : '\n' ∉ cs := fun m => h (List.mem_cons_of_mem _ m)
    have step : splitLines (c :: (cs ++ ['\n'])) =
        match splitLines (cs ++ ['\n']) with
        | [] => [[c]]
        | l :: ls => (c :: l) :: ls := by
      simp only [splitLines, hc, if_false]
    rw [List.cons_append, step, ih hcs]

theorem loggerOutput_closed (header t : String) :
    (loggerOutput header (t ++ "\n")).data = (header.data ++ t.data) ++ ['\n'] := by
  have hlast : (t ++ "\n").data.getLast? = some '\n' := by
    rw [String.data_append]
    show (t.data ++ ['\n']).getLast? = some '\n'
    simp
  unfold loggerOutput
  rw [if_pos hlast]
  simp only [String.data_append]
  show (header.data ++ (t.data ++ ['\n'])) ++ [] = _
  simp

/-- A record whose header and text hold no line feed is written as one line. -/
theorem textLines_record (header t : String) (hh : '\n' ∉ header.data)
    (ht : '\n' ∉ t.data) :
    textLines (loggerOutput header (t ++ "\n")) = [header ++ t] := by
  unfold textLines
  rw [loggerOutput_closed, splitLines_closed]
  · rfl
  · intro hm
    rcases List.mem_append.mp hm with hm | hm
    · exact hh hm
    · exact ht hm

theorem toString_int_no_lf (k : Int) : '\n' ∉ (toString k).data := by
  cases k with
  | ofNat m =>
    intro hm
    have hd := (toDigits_value m).2.1 '\n' hm
    exact absurd hd (by decide)
  | negSucc m =>
    intro hm
    have hm2 : '\n' ∈ '-' :: Nat.toDigits 10 (m + 1) := hm
    rcases List.mem_cons.mp hm2 with he | hm3
    · exact absurd he (by decide)
    · exact absurd ((toDigits_value (m + 1)).2.1 '\n' hm3) (by decide)

theorem summary_no_lf (k : Int) (v : String) (hv : '\n' ∉ v.data) :
    '\n' ∉ ("Completed job with key " ++ toString k ++ " and variables " ++ v).data := by
  simp only [String.data_append, List.mem_append, not_or]
  exact ⟨⟨⟨by decide, toString_int_no_lf k⟩, by decide⟩, hv⟩

/-- C8, as amended: for every key `k` and variables text `v` the human summary of a
completed job is one record handed to the logger, the text "Completed job with key
k and variables v" with `k` in decimal and single spaces between the operands,
closed by a line feed, whatever the response holds. When `v` holds no line feed the
logger writes it as exactly one line: the header of the logger followed by that
text, and the text alone when the header is empty. Hence after `init`, with no flag
given and key 42, a run whose request is built and whose Send succeeds returns nil
and writes the single line "Completed job with key 42 and variables" followed by
the text of an empty JSON object. -/
theorem human_summary_line (env : Env Req M) (k : Int) (o v header : String)
    (mp : List (String × Printer)) (resp other : M) (request : Req)
    (hc : env.variablesFromString 42 "\x7b\x7d" = Except.ok request)
    (hs : env.send request = Except.ok resp) :
    (CompleteJobResponseWrapper resp).print ⟨o, mp, k, v⟩ =
      ["Completed job with key " ++ toString k ++ " and variables " ++ v ++ "\n"] ∧
    (CompleteJobResponseWrapper resp).print ⟨o, mp, k, v⟩ =
      (CompleteJobResponseWrapper other).print ⟨o, mp, k, v⟩ ∧
    (HumanPrinter.print (CompleteJobResponseWrapper resp)
        (⟨⟨o, mp, k, v⟩, []⟩ : World Req M)) =
      (none, ⟨⟨o, mp, k, v⟩, [Event.print,
        Event.log ("Completed job with key " ++ toString k ++ " and variables " ++ v
          ++ "\n")]⟩) ∧
    ('\n' ∉ v.data →
      writtenLines "" ((CompleteJobResponseWrapper resp).print ⟨o, mp, k, v⟩) =
        ["Completed job with key " ++ toString k ++ " and variables " ++ v]) ∧
    ('\n' ∉ header.data → '\n' ∉ v.data →
      writtenLines header ((CompleteJobResponseWrapper resp).print ⟨o, mp, k, v⟩) =
        [header ++ ("Completed job with key " ++ toString k ++ " and variables " ++ v)]) ∧
    (RunE env ⟨{ parseFlags ⟨["42"], none, none⟩ (init zeroGlobals) with
        completeJobKey := 42 }, []⟩).1 = none ∧
    logged (RunE env ⟨{ parseFlags ⟨["42"], none, none⟩ (init zeroGlobals) with
        completeJobKey := 42 }, []⟩).2.trace =
      ["Completed job with key 42 and variables \x7b\x7d\n"] ∧
    writtenLines "" (logged (RunE env ⟨{ parseFlags ⟨["42"], none, none⟩
        (init zeroGlobals) with completeJobKey := 42 }, []⟩).2.trace) =
      ["Completed job with key 42 and variables \x7b\x7d"] := by
  have h1 : (CompleteJobResponseWrapper resp).print ⟨o, mp, k, v⟩ =
      ["Completed job with key " ++ toString k ++ " and variables " ++ v ++ "\n"] :=
    wrapper_print_text ⟨o, mp, k, v⟩
  have hlines : ∀ hdr : String, '\n' ∉ hdr.data → '\n' ∉ v.data →
      writtenLines hdr ((CompleteJobResponseWrapper resp).print ⟨o, mp, k, v⟩) =
        [hdr ++ ("Completed job with key " ++ toString k ++ " and variables " ++ v)] := by
    intro hdr hh hv
    rw [h1]
    simp only [writtenLines, List.map_cons, List.map_nil, List.flatten_cons,
      List.flatten_nil, List.append_nil]
    exact textLines_record hdr _ hh (summary_no_lf k v hv)
  have hrun : RunE env (⟨{ parseFlags ⟨["42"], none, none⟩ (init zeroGlobals) with
        completeJobKey := 42 }, []⟩ : World Req M) =
      (none, ⟨{ parseFlags ⟨["42"], none, none⟩ (init zeroGlobals) with
        completeJobKey := 42 },
        [Event.construct 42 "\x7b\x7d", Event.send request,
          Event.printerPrint Printer.HumanPrinter (CompleteJobResponseWrapper resp),
          Event.print,
          Event.log "Completed job with key 42 and variables \x7b\x7d\n"]⟩) := by
    rw [RunE_of_printer env (⟨{ parseFlags ⟨["42"], none, none⟩ (init zeroGlobals) with
        completeJobKey := 42 }, []⟩ : World Req M) Printer.HumanPrinter rfl]
    show (match env.variablesFromString 42 "\x7b\x7d" with
      | Except.error err => _
      | Except.ok request => _) = _
    rw [hc]
    simp only [hs]
    rfl
  refine ⟨h1, rfl, ?_, ?_, hlines header, ?_, ?_, ?_⟩
  · simp only [HumanPrinter.print, Printable.callPrint, h1]
    rfl
  · intro hv
    have h := hlines "" (by decide) hv
    rw [h]
    congr 1
  · rw [hrun]
  · rw [hrun]
    rfl
  · rw [hrun]
    rfl

/-- C8 at a concrete run: key 7, variables text `x`, and the default run with the
stand-in client. -/
theorem human_summary_line_witness :
    (stubEnv none none none).variablesFromString 42 "\x7b\x7d" =
        Except.ok (42, "\x7b\x7d") ∧
      (stubEnv none none none).send (42, "\x7b\x7d") = Except.ok "\x7b\x7d" ∧
      (CompleteJobResponseWrapper "\x7b\x7d").print ⟨"human", outputMap, 7, "x"⟩ =
        ["Completed job with key 7 and variables x\n"] ∧
      writtenLines "" ((CompleteJobResponseWrapper "\x7b\x7d").print
          ⟨"human", outputMap, 7, "x"⟩) =
        ["Completed job with key 7 and variables x"] ∧
      writtenLines "" (logged (RunE (stubEnv none none none)
          ⟨{ parseFlags ⟨["42"], none, none⟩ (init zeroGlobals) with
            completeJobKey := 42 }, []⟩).2.trace) =
        ["Completed job with key 42 and variables \x7b\x7d"] :=
  ⟨rfl, rfl,
    (human_summary_line (stubEnv none none none) 7 "human" "x" "" outputMap "\x7b\x7d"
      "\x7b\x7d" (42, "\x7b\x7d") rfl rfl).1,
    (human_summary_line (stubEnv none none none) 7 "human" "x" "" outputMap "\x7b\x7d"
      "\x7b\x7d" (42, "\x7b\x7d") rfl rfl).2.2.2.1 (by decide),
    (human_summary_line (stubEnv none none none) 7 "human" "x" "" outputMap "\x7b\x7d"
      "\x7b\x7d" (42, "\x7b\x7d") rfl rfl).2.2.2.2.2.2.2⟩

/-- C8 as first stated fails when the variables text holds a line feed: for key 0
and a well-formed JSON object broken over two lines the summary is written as two
lines, not as the one line of the claim. -/
theorem human_summary_two_lines :
    writtenLines "" ((CompleteJobResponseWrapper "\x7b\x7d").print
        ⟨"human", outputMap, 0, "\x7b\"a\":\n1\x7d"⟩) =
      ["Completed job with key 0 and variables \x7b\"a\":", "1\x7d"] ∧
    writtenLines "" ((CompleteJobResponseWrapper "\x7b\x7d").print
        ⟨"human", outputMap, 0, "\x7b\"a\":\n1\x7d"⟩) ≠
      ["Completed job with key 0 and variables \x7b\"a\":\n1\x7d"] := by
  constructor <;> decide

end Zbctl
